import Mathlib

/-!
Shallow embedding of the assessment engine of the e-learning platform:
the auto-grading, late-penalty, visibility, attempt-policy, submission
and best-attempt logic found in `assignmentService`/`quizService` and
the student quiz components.

Conventions of the embedding:
* JS values flowing through answer maps are modelled by `JsVal`
  (`undef` models JS `undefined`); strings are lists of characters so
  that the `toLowerCase`/`trim` chains compute structurally.
* Timestamps are integers (milliseconds since the epoch), as produced
  by `Date.getTime()`.
* JS numbers that the code treats as integral (question points, scores,
  per-day penalty percentages, attempt counts) are modelled by `ℤ`;
  the two fractional expressions (`Math.round((e/t)*100)` and
  `Math.ceil(diff/86400000)`) are computed exactly over `ℚ`.
* A division `0/0` (which yields `NaN` in JS and then propagates through
  `Math.round`) is modelled by `Option ℤ` with `none` standing for the
  absent numeric result.
-/

/-- A JavaScript value as it appears in an answers map: `undefined`,
a number (answer index), or a string. -/
inductive JsVal where
  | undef
  | num (n : Int)
  | str (s : List Char)
deriving DecidableEq

/-- `v?.toString()`: `undefined` stays undefined (`none`), numbers are
printed, strings pass through. -/
def jsToChars : JsVal → Option (List Char)
  | .undef => none
  | .num n => some (toString n).data
  | .str s => some s

/-- ASCII lower-casing of one character (`String.prototype.toLowerCase`
on the character sets the claims exercise). -/
def jsLowerChar (c : Char) : Char :=
  if 65 ≤ c.toNat ∧ c.toNat ≤ 90 then Char.ofNat (c.toNat + 32) else c

/-- `toLowerCase` over a JS string. -/
def jsToLower (s : List Char) : List Char := s.map jsLowerChar

/-- Whitespace as stripped by `String.prototype.trim`. -/
def jsIsWs (c : Char) : Bool := c = ' ' || c = '\t' || c = '\n' || c = '\r'

/-- `String.prototype.trim`: drop leading and trailing whitespace. -/
def jsTrim (s : List Char) : List Char :=
  ((s.dropWhile jsIsWs).reverse.dropWhile jsIsWs).reverse

/-- `Math.round` on an exact rational: round half-up (`⌊x + 1/2⌋`). -/
def jsRound (x : ℚ) : ℤ := ⌊x + 1/2⌋

/-- `Math.ceil(a / b)` on exact integer operands. -/
def jsCeilDiv (a b : ℤ) : ℤ := ⌈(a : ℚ) / (b : ℚ)⌉

/-- The question kinds of the data model (`Question.type` /
`AssignmentQuestion.type`). -/
inductive QuestionType where
  | multipleChoice
  | shortAnswer
  | essay
  | fileUpload
deriving DecidableEq

/-- A question: identifier, kind, optional correct answer
(`JsVal.undef` models an absent `correctAnswer`), point value and
optional explanation. -/
structure Question where
  id : String
  qtype : QuestionType
  correctAnswer : JsVal
  points : ℤ
  explanation : Option String
deriving DecidableEq

/-- An assignment configuration (`Assignment` in `types/assignment.ts`),
restricted to the fields the engine reads. `latePenalty = 0` models both
an absent and a zero per-day penalty (both are falsy in the source). -/
structure Assignment where
  questions : List Question
  dueDate : ℤ
  allowLateSubmission : Bool
  latePenalty : ℤ
  maxAttempts : ℤ
  showAnswersAfterDeadline : Bool

/-- An assignment submission (`AssignmentSubmission`): the learner's
answer map, the submission time and the frozen lateness flag. -/
structure Submission where
  answers : String → JsVal
  submittedAt : ℤ
  isLate : Bool

/-- A quiz configuration (`Quiz` in the quiz types), restricted to the
fields the engine reads. `timeLimit` is in minutes. -/
structure Quiz where
  questions : List Question
  passingScore : ℤ
  timeLimit : ℕ

/-- Per-question earned points inside `autoGradeSubmission`'s `forEach`
body: multiple-choice is strict (`===`) equality with the stored answer,
short-answer is `toString().toLowerCase().trim()` equality, all other
kinds earn nothing pending manual grading. -/
def autoGradeEarned (answers : String → JsVal) (q : Question) : ℤ :=
  match q.qtype with
  | .multipleChoice => if answers q.id = q.correctAnswer then q.points else 0
  | .shortAnswer =>
      if (jsToChars q.correctAnswer).map (fun s => jsTrim (jsToLower s))
          = (jsToChars (answers q.id)).map (fun s => jsTrim (jsToLower s))
        then q.points else 0
  | _ => 0

/-- The accumulator loop of `autoGradeSubmission`: the running
`(totalPoints, earnedPoints)` pair over the question list. -/
def autoGradeLoop (answers : String → JsVal) (qs : List Question) : ℤ × ℤ :=
  qs.foldl (fun acc q => (acc.1 + q.points, acc.2 + autoGradeEarned answers q)) (0, 0)

/-- The raw auto-graded score of `autoGradeSubmission`:
`totalPoints > 0 ? Math.round((earnedPoints / totalPoints) * 100) : 0`. -/
def autoGradeRawScore (answers : String → JsVal) (qs : List Question) : ℤ :=
  let tp := (autoGradeLoop answers qs).1
  let ep := (autoGradeLoop answers qs).2
  if 0 < tp then jsRound ((ep : ℚ) / (tp : ℚ) * 100) else 0

/-- `autoGradeSubmission`: the raw score followed by the late-penalty
step (`isLate && latePenalty` guard, `Math.ceil` days late, penalty
capped at 100, final score floored at 0). -/
def autoGradeSubmission (sub : Submission) (a : Assignment) : ℤ :=
  let score := autoGradeRawScore sub.answers a.questions
  if sub.isLate = true ∧ a.latePenalty ≠ 0 then
    let daysLate := jsCeilDiv (sub.submittedAt - a.dueDate) 86400000
    let penalty := min (a.latePenalty * daysLate) 100
    max 0 (score - penalty)
  else score

/-- The visibility gate computed at the top of
`calculateAssignmentResult`:
`assignment.showAnswersAfterDeadline && now > dueDate`. -/
def canViewAnswers (a : Assignment) (now : ℤ) : Bool :=
  a.showAnswersAfterDeadline && decide (a.dueDate < now)

/-- A per-question feedback entry of the assignment result path
(`AssignmentQuestionFeedback`). `isCorrect = none` models the
`undefined` left for manually graded kinds; `correctAnswer = .undef`
and `explanation = none` model the redacted fields. -/
structure AFeedback where
  questionId : String
  isCorrect : Option Bool
  userAnswer : JsVal
  correctAnswer : JsVal
  explanation : Option String
  points : ℤ
  earnedPoints : ℤ
deriving DecidableEq

/-- The body of the `map` in `calculateAssignmentResult`: grade one
question and redact `correctAnswer`/`explanation` unless
`canViewAnswers` holds. -/
def assignmentEntry (sub : Submission) (a : Assignment) (now : ℤ) (q : Question) :
    AFeedback :=
  let userAnswer := sub.answers q.id
  let cv := canViewAnswers a now
  let graded : Option Bool × ℤ :=
    match q.qtype with
    | .multipleChoice =>
        let ic := decide (userAnswer = q.correctAnswer)
        (some ic, if ic then q.points else 0)
    | .shortAnswer =>
        let ic := decide
          ((jsToChars q.correctAnswer).map (fun s => jsTrim (jsToLower s))
            = (jsToChars userAnswer).map (fun s => jsTrim (jsToLower s)))
        (some ic, if ic then q.points else 0)
    | _ => (none, 0)
  { questionId := q.id
    isCorrect := graded.1
    userAnswer := userAnswer
    correctAnswer := if cv then q.correctAnswer else .undef
    explanation := if cv then q.explanation else none
    points := q.points
    earnedPoints := graded.2 }

/-- The feedback list built by `calculateAssignmentResult`. -/
def calculateAssignmentFeedback (sub : Submission) (a : Assignment) (now : ℤ) :
    List AFeedback :=
  a.questions.map (assignmentEntry sub a now)

/-- A per-question feedback entry of the quiz result path
(`QuestionFeedback` in the quiz types): `isCorrect` is a plain boolean
and the correct answer and explanation are always present. -/
structure QFeedback where
  questionId : String
  isCorrect : Bool
  userAnswer : JsVal
  correctAnswer : JsVal
  explanation : Option String
  points : ℤ
  earnedPoints : ℤ
deriving DecidableEq

/-- The body of the `map` in `calculateQuizResult`: `isCorrect` starts
`false`, multiple-choice and short-answer are auto-checked, essays stay
`false`; `correctAnswer` and `explanation` are copied unconditionally. -/
def quizResultEntry (answers : String → JsVal) (q : Question) : QFeedback :=
  let userAnswer := answers q.id
  let ic : Bool :=
    match q.qtype with
    | .multipleChoice => decide (userAnswer = q.correctAnswer)
    | .shortAnswer =>
        decide ((jsToChars q.correctAnswer).map (fun s => jsTrim (jsToLower s))
          = (jsToChars userAnswer).map (fun s => jsTrim (jsToLower s)))
    | _ => false
  { questionId := q.id
    isCorrect := ic
    userAnswer := userAnswer
    correctAnswer := q.correctAnswer
    explanation := q.explanation
    points := q.points
    earnedPoints := if ic then q.points else 0 }

/-- The feedback list built by `calculateQuizResult`. -/
def calculateQuizResultFeedback (answers : String → JsVal) (quiz : Quiz) :
    List QFeedback :=
  quiz.questions.map (quizResultEntry answers)

/-- Per-question correctness in the quiz interface's
`calculateResults`: multiple-choice strict equality, short-answer
`toString().toLowerCase().trim()` equality, everything else `false`. -/
def interfaceIsCorrect (answers : String → JsVal) (q : Question) : Bool :=
  match q.qtype with
  | .multipleChoice => decide (answers q.id = q.correctAnswer)
  | .shortAnswer =>
      decide ((jsToChars q.correctAnswer).map (fun s => jsTrim (jsToLower s))
        = (jsToChars (answers q.id)).map (fun s => jsTrim (jsToLower s)))
  | _ => false

/-- The `correctAnswers` counter of the quiz interface's
`calculateResults`. -/
def interfaceCorrectCount (answers : String → JsVal) (qs : List Question) : ℕ :=
  qs.foldl (fun n q => if interfaceIsCorrect answers q then n + 1 else n) 0

/-- The score of the quiz interface's `calculateResults`:
`Math.round((correctAnswers / totalQuestions) * 100)`. With no
questions the JS division is `0/0 = NaN`, modelled by `none`. -/
def interfaceScore (answers : String → JsVal) (quiz : Quiz) : Option ℤ :=
  if quiz.questions.length = 0 then none
  else some (jsRound ((interfaceCorrectCount answers quiz.questions : ℚ)
    / (quiz.questions.length : ℚ) * 100))

/-- Per-question correctness in `handleQuizSubmit` of the student
courses view: multiple-choice strict equality, short-answer
`toString().toLowerCase()` equality (this path does not trim),
everything else `false`. -/
def coursesViewIsCorrect (answers : String → JsVal) (q : Question) : Bool :=
  match q.qtype with
  | .multipleChoice => decide (answers q.id = q.correctAnswer)
  | .shortAnswer =>
      decide ((jsToChars q.correctAnswer).map jsToLower
        = (jsToChars (answers q.id)).map jsToLower)
  | _ => false

/-- The `correctAnswers` counter of `handleQuizSubmit`. -/
def coursesViewCorrectCount (answers : String → JsVal) (qs : List Question) : ℕ :=
  qs.foldl (fun n q => if coursesViewIsCorrect answers q then n + 1 else n) 0

/-- The score computed by `handleQuizSubmit`:
`Math.round((correctAnswers / totalQuestions) * 100)`, weighting every
question equally. With no questions the JS division is `0/0 = NaN`,
modelled by `none`. -/
def coursesViewQuizScore (answers : String → JsVal) (quiz : Quiz) : Option ℤ :=
  if quiz.questions.length = 0 then none
  else some (jsRound ((coursesViewCorrectCount answers quiz.questions : ℚ)
    / (quiz.questions.length : ℚ) * 100))

/-- `canSubmitAssignment`: past-due submissions are rejected unless late
submission is allowed; otherwise the attempt cap applies whenever
`submissions.length >= maxAttempts && maxAttempts > 0`. -/
def canSubmitAssignment (a : Assignment) (submissions : List Submission)
    (now : ℤ) : Bool :=
  if a.dueDate < now ∧ a.allowLateSubmission = false then false
  else if a.maxAttempts ≤ (submissions.length : ℤ) ∧ 0 < a.maxAttempts then false
  else true

/-- Modelled from the spec: the attempt policy
`canStartOrResubmit(config, priorAttempts)` of §4.4, whose attempt-cap
condition is `config.maxAttempts != -1` together with
`count(priorAttempts) ≥ config.maxAttempts`. -/
def canStartOrResubmitSpec (a : Assignment) (priorAttempts : ℕ) (now : ℤ) : Bool :=
  if a.dueDate < now ∧ a.allowLateSubmission = false then false
  else if a.maxAttempts ≠ -1 ∧ a.maxAttempts ≤ (priorAttempts : ℤ) then false
  else true

/-- Modelled from the spec: the case-insensitive, whitespace-trimmed
normalisation §4.5 prescribes for short-answer grading. -/
def specShortAnswerNorm (v : JsVal) : Option (List Char) :=
  (jsToChars v).map (fun s => jsTrim (jsToLower s))

/-- Modelled from the spec: lower-casing without trimming, used to name
what the courses-view short-answer comparison actually computes. -/
def lowerOnlyNorm (v : JsVal) : Option (List Char) :=
  (jsToChars v).map jsToLower

/-- A stored quiz attempt (`QuizAttempt`), restricted to the fields the
claims read. -/
structure StoredAttempt where
  answers : String → JsVal
  score : ℤ
  passed : Bool
  startedAt : ℤ
  completedAt : ℤ

/-- The in-memory state `handleQuizSubmit` mutates: the current
in-progress attempt and the list of persisted attempts (the
`quiz_attempts` collection, appended to by `saveQuizAttempt`). -/
structure QuizSession where
  currentAttempt : Option StoredAttempt
  savedAttempts : List StoredAttempt

/-- `handleQuizSubmit` as a state transition: with no current attempt
the guard `if (!currentAttempt ...) return` makes the call a no-op;
otherwise the completed attempt is persisted (`saveQuizAttempt` adds a
document) and `currentAttempt` is cleared. The completed attempt value
`completed` abbreviates the record `{...currentAttempt, answers, score,
passed, completedAt, timeSpent}` built from the computed score. -/
def submitQuiz (completed : StoredAttempt) (s : QuizSession) : QuizSession :=
  match s.currentAttempt with
  | none => s
  | some _ =>
      { currentAttempt := none
        savedAttempts := s.savedAttempts ++ [completed] }

/-- The countdown state of the quiz interface: the remaining-seconds
counter (`none` before a timer exists), the `quizCompleted` flag and the
number of times submission has been triggered. -/
structure TimerState where
  timeRemaining : Option ℕ
  quizCompleted : Bool
  submitCount : ℕ
deriving DecidableEq

/-- One pass of the countdown effect: with time left and the quiz not
completed the counter decrements; at zero and not completed,
`handleSubmit()` fires (setting `quizCompleted`); in every other state
nothing happens. -/
def timerStep (s : TimerState) : TimerState :=
  match s.timeRemaining, s.quizCompleted with
  | some (n + 1), false => { s with timeRemaining := some n }
  | some 0, false =>
      { timeRemaining := some 0, quizCompleted := true
        submitCount := s.submitCount + 1 }
  | _, _ => s

/-- The timer state right after `start()`:
`timeRemaining = quiz.timeLimit * 60` seconds, nothing submitted. -/
def initTimer (quiz : Quiz) : TimerState :=
  { timeRemaining := some (quiz.timeLimit * 60), quizCompleted := false
    submitCount := 0 }

/-- The ordering used by `getQuizAttempts`' in-memory sort: most recent
`startedAt` first. -/
def recentFirst (a b : StoredAttempt) : Prop := b.startedAt ≤ a.startedAt

instance : DecidableRel recentFirst :=
  fun a b => inferInstanceAs (Decidable (b.startedAt ≤ a.startedAt))

instance : IsTotal StoredAttempt recentFirst :=
  ⟨fun a b => le_total b.startedAt a.startedAt⟩

instance : IsTrans StoredAttempt recentFirst :=
  ⟨fun _ _ _ h h2 => le_trans h2 h⟩

/-- `getQuizAttempts`: the fetched attempts sorted by `startedAt` in
descending order (most recent first). -/
def getQuizAttempts (l : List StoredAttempt) : List StoredAttempt :=
  List.insertionSort recentFirst l

/-- The reducer of `getBestQuizAttempt`:
`current.score > best.score ? current : best`. -/
def pickBest (best current : StoredAttempt) : StoredAttempt :=
  if best.score < current.score then current else best

/-- `getBestQuizAttempt`: `null` with no attempts, otherwise the
`reduce` of `pickBest` over the sorted attempts. -/
def getBestQuizAttempt (l : List StoredAttempt) : Option StoredAttempt :=
  match getQuizAttempts l with
  | [] => none
  | h :: t => some (t.foldl pickBest h)

/-- The Scenario-B quiz: a 2-point and a 3-point multiple-choice
question. -/
def scenarioBQuestions : List Question :=
  [ { id := "q1", qtype := .multipleChoice, correctAnswer := .num 0
      points := 2, explanation := none },
    { id := "q2", qtype := .multipleChoice, correctAnswer := .num 1
      points := 3, explanation := none } ]

/-- The Scenario-B quiz configuration. -/
def scenarioBQuiz : Quiz :=
  { questions := scenarioBQuestions, passingScore := 70, timeLimit := 0 }

/-- Scenario-B answers: only the 2-point question is answered
correctly. -/
def scenarioBAnswers : String → JsVal :=
  fun id => (if id = "q1" then .num 0 else .undef)

/-- The Scenario-C assignment: ten total points, due
2024-01-10T00:00:00Z, 10 percent penalty per day late. -/
def scenarioCAssignment : Assignment :=
  { questions :=
      [ { id := "a1", qtype := .multipleChoice, correctAnswer := .num 0
          points := 9, explanation := none },
        { id := "a2", qtype := .multipleChoice, correctAnswer := .num 1
          points := 1, explanation := none } ]
    dueDate := 1704844800000
    allowLateSubmission := true
    latePenalty := 10
    maxAttempts := 3
    showAnswersAfterDeadline := true }

/-- The Scenario-C submission: raw score 90 (only the 9-point question
is correct), submitted 2024-01-12T01:00:00Z, 49 hours past the due
date, flagged late. -/
def scenarioCSubmission : Submission :=
  { answers := fun id => if id = "a1" then .num 0 else .undef
    submittedAt := 1705021200000
    isLate := true }

/-- A quiz whose single question carries a correct answer and an
explanation, used to show the quiz result path never redacts them. -/
def answerKeyQuiz : Quiz :=
  { questions :=
      [ { id := "q1", qtype := .multipleChoice, correctAnswer := .num 1
          points := 5, explanation := some "because" } ]
    passingScore := 70, timeLimit := 0 }

/-- An answers map with every question unanswered. -/
def noAnswers : String → JsVal := fun _ => (.undef)

/-- An assignment configured to never show answers, with an answer key
and explanation present on its questions. -/
def hiddenAnswersAssignment : Assignment :=
  { questions :=
      [ { id := "h1", qtype := .multipleChoice, correctAnswer := .num 2
          points := 4, explanation := some "hidden why" },
        { id := "h2", qtype := .essay, correctAnswer := .undef
          points := 6, explanation := some "rubric" } ]
    dueDate := 1704844800000
    allowLateSubmission := true
    latePenalty := 0
    maxAttempts := -1
    showAnswersAfterDeadline := false }

/-- A submission against `hiddenAnswersAssignment`. -/
def hiddenAnswersSubmission : Submission :=
  { answers := noAnswers, submittedAt := 1704844800001, isLate := true }

/-- A short-answer question whose stored correct answer is `"abc"`. -/
def shortAnswerQuestion : Question :=
  { id := "s1", qtype := .shortAnswer, correctAnswer := .str ['a', 'b', 'c']
    points := 1, explanation := none }

/-- Answers giving `"abc "` (trailing blank) for the short-answer
question: trim-insensitively equal to the key. -/
def trailingSpaceAnswers : String → JsVal :=
  fun id => (if id = "s1" then .str ['a', 'b', 'c', ' '] else .undef)

/-- An essay question with a model answer recorded. -/
def essayQuestion : Question :=
  { id := "e1", qtype := .essay, correctAnswer := .str ['o', 'k']
    points := 7, explanation := some "graded by hand" }

/-- A file-upload question. -/
def fileUploadQuestion : Question :=
  { id := "f1", qtype := .fileUpload, correctAnswer := .undef
    points := 3, explanation := none }

/-- A quiz with an empty question set. -/
def emptyQuiz : Quiz := { questions := [], passingScore := 70, timeLimit := 0 }

/-- A concrete stored attempt used as a witness input. -/
def attemptA : StoredAttempt :=
  { answers := noAnswers, score := 80, passed := true
    startedAt := 100, completedAt := 150 }

/-- A second concrete stored attempt, started later, same score. -/
def attemptB : StoredAttempt :=
  { answers := noAnswers, score := 80, passed := true
    startedAt := 200, completedAt := 260 }

/-! ### Helper lemmas -/

theorem jsRound_eq_of (x : ℚ) (z : ℤ) (h1 : (z : ℚ) ≤ x + 1/2)
    (h2 : x + 1/2 < (z : ℚ) + 1) : jsRound x = z := by
  rw [jsRound]
  exact Int.floor_eq_iff.2 ⟨h1, h2⟩

theorem jsRound_nonneg (x : ℚ) (h : 0 ≤ x) : 0 ≤ jsRound x := by
  rw [jsRound]
  exact Int.floor_nonneg.2 (by linarith)

theorem jsCeilDiv_one_le (a b : ℤ) (ha : 0 < a) (hb : 0 < b) :
    1 ≤ jsCeilDiv a b := by
  rw [jsCeilDiv]
  have hpos : (0 : ℚ) < (a : ℚ) / (b : ℚ) := by
    apply div_pos <;> exact_mod_cast ‹_›
  exact Int.ceil_pos.2 hpos

theorem autoGradeLoop_aux (answers : String → JsVal) :
    ∀ (qs : List Question) (p e : ℤ),
      qs.foldl (fun acc q => (acc.1 + q.points, acc.2 + autoGradeEarned answers q)) (p, e)
        = (p + (qs.map Question.points).sum, e + (qs.map (autoGradeEarned answers)).sum)
  | [], p, e => by simp
  | q :: qs, p, e => by
      rw [List.foldl_cons, autoGradeLoop_aux answers qs]
      simp [add_assoc]

theorem autoGradeLoop_eq (answers : String → JsVal) (qs : List Question) :
    autoGradeLoop answers qs
      = ((qs.map Question.points).sum, (qs.map (autoGradeEarned answers)).sum) := by
  rw [autoGradeLoop, autoGradeLoop_aux]
  simp

theorem autoGradeEarned_nonneg (answers : String → JsVal) (q : Question)
    (h : 0 ≤ q.points) : 0 ≤ autoGradeEarned answers q := by
  obtain ⟨id, qt, ca, pts, ex⟩ := q
  simp only [autoGradeEarned] at *
  cases qt <;> dsimp <;> first
    | (split <;> simp [h])
    | simp

theorem autoGradeRawScore_nonneg (answers : String → JsVal) (qs : List Question)
    (hq : ∀ q ∈ qs, 0 ≤ q.points) : 0 ≤ autoGradeRawScore answers qs := by
  rw [autoGradeRawScore]
  split
  · apply jsRound_nonneg
    have he : 0 ≤ (autoGradeLoop answers qs).2 := by
      rw [autoGradeLoop_eq]
      apply List.sum_nonneg
      intro x hx
      rcases List.mem_map.1 hx with ⟨q, hmem, rfl⟩
      exact autoGradeEarned_nonneg answers q (hq q hmem)
    have ht : (0 : ℤ) < (autoGradeLoop answers qs).1 := ‹_›
    have : (0 : ℚ) ≤ ((autoGradeLoop answers qs).2 : ℚ) / ((autoGradeLoop answers qs).1 : ℚ) := by
      apply div_nonneg <;> [exact_mod_cast he; exact_mod_cast le_of_lt ht]
    linarith
  · exact le_refl 0

theorem scenarioB_auto_eval :
    autoGradeRawScore scenarioBAnswers scenarioBQuestions = 40 := by
  have hloop : autoGradeLoop scenarioBAnswers scenarioBQuestions = (5, 2) := by decide
  simp only [autoGradeRawScore, hloop]
  norm_num
  apply jsRound_eq_of <;> norm_num

theorem scenarioB_cv_eval :
    coursesViewQuizScore scenarioBAnswers scenarioBQuiz = some 50 := by
  have hcount : coursesViewCorrectCount scenarioBAnswers scenarioBQuiz.questions = 1 := by
    decide
  have hlen : scenarioBQuiz.questions.length = 2 := by decide
  simp only [coursesViewQuizScore, hcount, hlen, Option.some.injEq]
  norm_num
  apply jsRound_eq_of <;> norm_num

theorem scenarioC_raw_eval :
    autoGradeRawScore scenarioCSubmission.answers scenarioCAssignment.questions = 90 := by
  have hloop :
      autoGradeLoop scenarioCSubmission.answers scenarioCAssignment.questions = (10, 9) := by
    decide
  simp only [autoGradeRawScore, hloop]
  norm_num
  apply jsRound_eq_of <;> norm_num

theorem scenarioC_ceil_eval :
    jsCeilDiv (scenarioCSubmission.submittedAt - scenarioCAssignment.dueDate) 86400000 = 3 := by
  have hdiff : scenarioCSubmission.submittedAt - scenarioCAssignment.dueDate = 176400000 := by
    decide
  rw [hdiff, jsCeilDiv]
  exact Int.ceil_eq_iff.2 (by norm_num)

theorem scenarioC_final_eval :
    autoGradeSubmission scenarioCSubmission scenarioCAssignment = 60 := by
  have hc : scenarioCSubmission.isLate = true ∧ scenarioCAssignment.latePenalty ≠ 0 := by
    decide
  unfold autoGradeSubmission
  simp only [scenarioC_raw_eval, scenarioC_ceil_eval]
  rw [if_pos hc]
  decide

theorem pickBest_left_le (h a : StoredAttempt) : h.score ≤ (pickBest h a).score := by
  unfold pickBest
  split <;> omega

theorem pickBest_right_le (h a : StoredAttempt) : a.score ≤ (pickBest h a).score := by
  unfold pickBest
  split <;> omega

theorem foldl_pickBest_mem :
    ∀ (t : List StoredAttempt) (h : StoredAttempt), t.foldl pickBest h ∈ h :: t
  | [], h => List.mem_singleton.2 rfl
  | a :: t, h => by
      rw [List.foldl_cons]
      rcases List.mem_cons.1 (foldl_pickBest_mem t (pickBest h a)) with h1 | h1
      · rw [h1]
        unfold pickBest
        split
        · exact List.mem_cons_of_mem _ (List.mem_cons_self a t)
        · exact List.mem_cons_self h _
      · exact List.mem_cons_of_mem _ (List.mem_cons_of_mem _ h1)

theorem foldl_pickBest_le :
    ∀ (t : List StoredAttempt) (h : StoredAttempt),
      ∀ x ∈ h :: t, x.score ≤ (t.foldl pickBest h).score
  | [], h, x, hx => by
      rw [List.mem_singleton.1 hx]
      exact le_refl _
  | a :: t, h, x, hx => by
      rw [List.foldl_cons]
      have hhead := foldl_pickBest_le t (pickBest h a) (pickBest h a)
        (List.mem_cons_self _ _)
      rcases List.mem_cons.1 hx with rfl | hx'
      · exact le_trans (pickBest_left_le x a) hhead
      · rcases List.mem_cons.1 hx' with rfl | hx''
        · exact le_trans (pickBest_right_le h x) hhead
        · exact foldl_pickBest_le t (pickBest h a) x (List.mem_cons_of_mem _ hx'')

theorem foldl_pickBest_head_or_lt :
    ∀ (t : List StoredAttempt) (h : StoredAttempt),
      t.foldl pickBest h = h ∨ h.score < (t.foldl pickBest h).score
  | [], _ => Or.inl rfl
  | a :: t, h => by
      rw [List.foldl_cons]
      by_cases hc : h.score < a.score
      · right
        have h2 : pickBest h a = a := by
          unfold pickBest
          rw [if_pos hc]
        have h3 := foldl_pickBest_le t (pickBest h a) (pickBest h a)
          (List.mem_cons_self _ _)
        calc h.score < a.score := hc
          _ = (pickBest h a).score := by rw [h2]
          _ ≤ _ := h3
      · have h2 : pickBest h a = h := by
          unfold pickBest
          rw [if_neg hc]
        rw [h2]
        exact foldl_pickBest_head_or_lt t h

theorem foldl_pickBest_tie :
    ∀ (t : List StoredAttempt) (h : StoredAttempt),
      List.Sorted recentFirst (h :: t) →
      ∀ x ∈ h :: t, x.score = (t.foldl pickBest h).score →
        x.startedAt ≤ (t.foldl pickBest h).startedAt
  | [], h, _, x, hx, _ => by
      rw [List.mem_singleton.1 hx]
      exact le_refl _
  | a :: t, h, hsort, x, hx, hsc => by
      rw [List.foldl_cons] at hsc ⊢
      obtain ⟨hrel, hsort'⟩ := List.sorted_cons.1 hsort
      have hsortT : List.Sorted recentFirst (h :: t) :=
        List.sorted_cons.2
          ⟨fun b hb => hrel b (List.mem_cons_of_mem _ hb), (List.sorted_cons.1 hsort').2⟩
      by_cases hc : h.score < a.score
      · have hpa : pickBest h a = a := by
          unfold pickBest
          rw [if_pos hc]
        have hsortA : List.Sorted recentFirst (pickBest h a :: t) := by
          rw [hpa]
          exact hsort'
        rcases List.mem_cons.1 hx with rfl | hx'
        · exfalso
          have hle := foldl_pickBest_le t (pickBest x a) (pickBest x a)
            (List.mem_cons_self _ _)
          rw [hpa] at hle hsc
          omega
        · exact foldl_pickBest_tie t (pickBest h a) hsortA x
            (by rw [hpa]; exact hx') hsc
      · have hpa : pickBest h a = h := by
          unfold pickBest
          rw [if_neg hc]
        rw [hpa] at hsc ⊢
        rcases List.mem_cons.1 hx with rfl | hx'
        · exact foldl_pickBest_tie t x hsortT x (List.mem_cons_self _ _) hsc
        · rcases List.mem_cons.1 hx' with rfl | hx''
          · rcases foldl_pickBest_head_or_lt t h with heq | hlt
            · rw [heq]
              exact hrel x (List.mem_cons_self _ _)
            · exfalso
              omega
          · exact foldl_pickBest_tie t h hsortT x (List.mem_cons_of_mem _ hx'') hsc

theorem timerStep_fixed (s : TimerState) (h : s.quizCompleted = true) :
    timerStep s = s := by
  obtain ⟨tr, qc, sc⟩ := s
  simp only at h
  rw [h, timerStep]
  rcases tr with _ | ⟨_ | n⟩ <;> rfl

/-! ### Claim theorems -/

/-- C1 (amended): the assignment auto-grader computes the raw score as
`round(100 * sum(pointsEarned) / sum(points))` with round-half-up
(0 when the point total is not positive), and on the Scenario-B quiz
(2-pt and 3-pt multiple-choice, only the 2-pt answered correctly) it
yields 40; the quiz submission handler of the courses view instead
weighs every question equally and yields 50 on the same scenario. -/
theorem scoring_c1_amended :
    (∀ (answers : String → JsVal) (qs : List Question),
      autoGradeRawScore answers qs
        = if 0 < (qs.map Question.points).sum
          then jsRound (100 * ((qs.map (autoGradeEarned answers)).sum : ℚ)
              / ((qs.map Question.points).sum : ℚ))
          else 0)
    ∧ autoGradeRawScore scenarioBAnswers scenarioBQuestions = 40
    ∧ coursesViewQuizScore scenarioBAnswers scenarioBQuiz = some 50 := by
  refine ⟨?_, scenarioB_auto_eval, scenarioB_cv_eval⟩
  intro answers qs
  rw [autoGradeRawScore, autoGradeLoop_eq]
  apply if_congr Iff.rfl ?_ rfl
  apply congrArg jsRound
  ring

/-- C1 (counterexample): on the spec's Scenario-B quiz the quiz
submission handler computes 50, not the claimed 40. -/
theorem scoring_c1_counterexample :
    coursesViewQuizScore scenarioBAnswers scenarioBQuiz = some 50
    ∧ coursesViewQuizScore scenarioBAnswers scenarioBQuiz ≠ some 40 := by
  refine ⟨scenarioB_cv_eval, ?_⟩
  rw [scenarioB_cv_eval]
  decide

/-- C3 (amended): for a late submission with a nonzero per-day penalty
the final score is `max(0, raw − min(latePenaltyPerDay * daysLate, 100))`
with `daysLate = ceil((submittedAt − dueDate) / 1 day)`, which is at
least 1 once late (so the spec's `max 1` is redundant); the Scenario-C
submission (due 2024-01-10T00:00:00Z, submitted 2024-01-12T01:00:00Z,
penalty 10/day, raw score 90) is 3 days late by ceiling and yields a
final score of 60. -/
theorem late_penalty_c3_amended :
    (∀ (sub : Submission) (a : Assignment),
      sub.isLate = true → a.latePenalty ≠ 0 → a.dueDate < sub.submittedAt →
      1 ≤ jsCeilDiv (sub.submittedAt - a.dueDate) 86400000
      ∧ autoGradeSubmission sub a
          = max 0 (autoGradeRawScore sub.answers a.questions
              - min (a.latePenalty
                  * max 1 (jsCeilDiv (sub.submittedAt - a.dueDate) 86400000)) 100))
    ∧ autoGradeSubmission scenarioCSubmission scenarioCAssignment = 60 := by
  refine ⟨?_, scenarioC_final_eval⟩
  intro sub a hl hp hlt
  have hdl : 1 ≤ jsCeilDiv (sub.submittedAt - a.dueDate) 86400000 :=
    jsCeilDiv_one_le _ _ (by omega) (by norm_num)
  refine ⟨hdl, ?_⟩
  unfold autoGradeSubmission
  rw [if_pos ⟨hl, hp⟩, max_eq_right hdl]

/-- C3 (counterexample): on the claim's own concrete instance the code
produces a final score of 60, not 70 — the submission is 3 days late by
ceiling (49 hours), not 2. -/
theorem late_penalty_c3_counterexample :
    autoGradeSubmission scenarioCSubmission scenarioCAssignment = 60
    ∧ autoGradeSubmission scenarioCSubmission scenarioCAssignment ≠ 70 := by
  refine ⟨scenarioC_final_eval, ?_⟩
  rw [scenarioC_final_eval]
  decide

/-- C3 (witness): the amended theorem applied to the Scenario-C
submission. -/
theorem late_penalty_c3_witness :
    1 ≤ jsCeilDiv (scenarioCSubmission.submittedAt - scenarioCAssignment.dueDate) 86400000
    ∧ autoGradeSubmission scenarioCSubmission scenarioCAssignment
        = max 0 (autoGradeRawScore scenarioCSubmission.answers scenarioCAssignment.questions
            - min (scenarioCAssignment.latePenalty
                * max 1 (jsCeilDiv
                    (scenarioCSubmission.submittedAt - scenarioCAssignment.dueDate)
                    86400000)) 100) :=
  late_penalty_c3_amended.1 scenarioCSubmission scenarioCAssignment rfl
    (by decide) (by decide)

/-- C5: the final score after the late-penalty step never exceeds the
raw auto-graded score (given nonnegative point values, a nonnegative
per-day penalty, and a lateness flag consistent with the timestamps),
and the two are equal whenever the submission is not late. -/
theorem penalty_monotone_c5 :
    ∀ (sub : Submission) (a : Assignment),
      (∀ q ∈ a.questions, 0 ≤ q.points) →
      0 ≤ a.latePenalty →
      (sub.isLate = true → a.dueDate < sub.submittedAt) →
      autoGradeSubmission sub a ≤ autoGradeRawScore sub.answers a.questions
      ∧ (sub.isLate = false →
          autoGradeSubmission sub a = autoGradeRawScore sub.answers a.questions) := by
  intro sub a hq hp hl
  have hraw : 0 ≤ autoGradeRawScore sub.answers a.questions :=
    autoGradeRawScore_nonneg sub.answers a.questions hq
  constructor
  · unfold autoGradeSubmission
    dsimp only
    split
    case isTrue hc =>
      obtain ⟨hlate, _⟩ := hc
      have hdl : 1 ≤ jsCeilDiv (sub.submittedAt - a.dueDate) 86400000 :=
        jsCeilDiv_one_le _ _ (by have := hl hlate; omega) (by norm_num)
      have hpen : 0 ≤ min (a.latePenalty * jsCeilDiv (sub.submittedAt - a.dueDate) 86400000) 100 := by
        have : 0 ≤ a.latePenalty * jsCeilDiv (sub.submittedAt - a.dueDate) 86400000 :=
          mul_nonneg hp (by omega)
        omega
      omega
    case isFalse => exact le_refl _
  · intro hnl
    unfold autoGradeSubmission
    rw [if_neg]
    intro hc
    rw [hnl] at hc
    exact absurd hc.1 (by decide)

/-- C5 (witness): the monotonicity theorem applied to the Scenario-C
submission. -/
theorem penalty_monotone_c5_witness :
    autoGradeSubmission scenarioCSubmission scenarioCAssignment
      ≤ autoGradeRawScore scenarioCSubmission.answers scenarioCAssignment.questions
    ∧ autoGradeSubmission { answers := noAnswers, submittedAt := 5, isLate := false }
        scenarioCAssignment
        = autoGradeRawScore noAnswers scenarioCAssignment.questions :=
  ⟨(penalty_monotone_c5 scenarioCSubmission scenarioCAssignment (by decide) (by decide)
      (by decide)).1,
    (penalty_monotone_c5 { answers := noAnswers, submittedAt := 5, isLate := false }
      scenarioCAssignment (by decide) (by decide) (by decide)).2 rfl⟩

/-- C2 (amended): `canViewAnswers` is
`showAnswersAfterDeadline && now > dueDate`, and when it is false the
assignment result path redacts `correctAnswer` and `explanation` from
every feedback entry; the quiz result path computes no visibility gate
and never redacts. -/
theorem visibility_c2_amended :
    ∀ (a : Assignment) (sub : Submission) (now : ℤ),
      canViewAnswers a now = (a.showAnswersAfterDeadline && decide (a.dueDate < now))
      ∧ (canViewAnswers a now = false →
          (calculateAssignmentFeedback sub a now).all
            (fun e => decide (e.correctAnswer = JsVal.undef ∧ e.explanation = none))
            = true) := by
  intro a sub now
  refine ⟨rfl, ?_⟩
  intro h
  rw [List.all_eq_true]
  intro e he
  rcases List.mem_map.1 he with ⟨q, _, rfl⟩
  simp [assignmentEntry, h]

/-- C2 (witness): the amended theorem applied to an assignment that
never shows answers, yielding fully redacted feedback. -/
theorem visibility_c2_witness :
    (calculateAssignmentFeedback hiddenAnswersSubmission hiddenAnswersAssignment 0).all
      (fun e => decide (e.correctAnswer = JsVal.undef ∧ e.explanation = none)) = true :=
  (visibility_c2_amended hiddenAnswersAssignment hiddenAnswersSubmission 0).2 (by decide)

/-- C2 (counterexample): the quiz result path hands back the stored
correct answer and explanation in every entry, so its feedback is never
redacted regardless of any visibility condition. -/
theorem visibility_c2_counterexample :
    (calculateQuizResultFeedback noAnswers answerKeyQuiz).all
      (fun e => decide (e.correctAnswer = JsVal.undef ∧ e.explanation = none)) = false
    ∧ (calculateQuizResultFeedback noAnswers answerKeyQuiz).map QFeedback.explanation
        = [some "because"]
    ∧ (calculateQuizResultFeedback noAnswers answerKeyQuiz).map QFeedback.correctAnswer
        = [JsVal.num 1] := by
  decide

/-- C4: `canSubmitAssignment` coincides with the spec's attempt policy
(past-due-and-no-late rejection first, then the attempt cap) for every
configuration whose `maxAttempts` is the `-1` sentinel or at least 1;
with the `-1` sentinel the attempt count never blocks. -/
theorem attempt_policy_c4 :
    ∀ (a : Assignment) (subs : List Submission) (now : ℤ),
      a.maxAttempts = -1 ∨ 1 ≤ a.maxAttempts →
      canSubmitAssignment a subs now = canStartOrResubmitSpec a subs.length now
      ∧ (a.maxAttempts = -1 →
          canSubmitAssignment a subs now
            = !(decide (a.dueDate < now) && !a.allowLateSubmission)) := by
  intro a subs now h
  constructor
  · unfold canSubmitAssignment canStartOrResubmitSpec
    split_ifs <;> first | rfl | omega
  · intro hm
    unfold canSubmitAssignment
    rcases hd : decide (a.dueDate < now) with _ | _
      <;> rcases hal : a.allowLateSubmission with _ | _
      <;> simp_all

/-- C4 (witness): the policy theorem applied to an unlimited-attempt
assignment with no prior submissions. -/
theorem attempt_policy_c4_witness :
    canSubmitAssignment hiddenAnswersAssignment [] 0
      = canStartOrResubmitSpec hiddenAnswersAssignment ([] : List Submission).length 0
    ∧ canSubmitAssignment hiddenAnswersAssignment [] 0
        = !(decide (hiddenAnswersAssignment.dueDate < 0)
            && !hiddenAnswersAssignment.allowLateSubmission) :=
  ⟨(attempt_policy_c4 hiddenAnswersAssignment [] 0 (Or.inl rfl)).1,
    (attempt_policy_c4 hiddenAnswersAssignment [] 0 (Or.inl rfl)).2 rfl⟩

/-- C6 (amended): for short-answer questions the quiz interface, the
quiz result service and the assignment auto-grader all decide
correctness by case-insensitive, whitespace-trimmed equality, while the
courses-view quiz submission handler only lower-cases and does not
trim. -/
theorem short_answer_c6_amended :
    ∀ (answers : String → JsVal) (q : Question),
      q.qtype = QuestionType.shortAnswer →
      interfaceIsCorrect answers q
          = decide (specShortAnswerNorm q.correctAnswer = specShortAnswerNorm (answers q.id))
      ∧ (quizResultEntry answers q).isCorrect
          = decide (specShortAnswerNorm q.correctAnswer = specShortAnswerNorm (answers q.id))
      ∧ autoGradeEarned answers q
          = (if specShortAnswerNorm q.correctAnswer = specShortAnswerNorm (answers q.id)
              then q.points else 0)
      ∧ coursesViewIsCorrect answers q
          = decide (lowerOnlyNorm q.correctAnswer = lowerOnlyNorm (answers q.id)) := by
  intro answers q h
  refine ⟨?_, ?_, ?_, ?_⟩ <;>
    simp [interfaceIsCorrect, quizResultEntry, autoGradeEarned, coursesViewIsCorrect,
      specShortAnswerNorm, lowerOnlyNorm, h]

/-- C6 (witness): the normalisation theorem applied to the short-answer
question with a trailing-blank user answer. -/
theorem short_answer_c6_witness :
    interfaceIsCorrect trailingSpaceAnswers shortAnswerQuestion
        = decide (specShortAnswerNorm shortAnswerQuestion.correctAnswer
            = specShortAnswerNorm (trailingSpaceAnswers shortAnswerQuestion.id))
    ∧ (quizResultEntry trailingSpaceAnswers shortAnswerQuestion).isCorrect
        = decide (specShortAnswerNorm shortAnswerQuestion.correctAnswer
            = specShortAnswerNorm (trailingSpaceAnswers shortAnswerQuestion.id))
    ∧ autoGradeEarned trailingSpaceAnswers shortAnswerQuestion
        = (if specShortAnswerNorm shortAnswerQuestion.correctAnswer
              = specShortAnswerNorm (trailingSpaceAnswers shortAnswerQuestion.id)
            then shortAnswerQuestion.points else 0)
    ∧ coursesViewIsCorrect trailingSpaceAnswers shortAnswerQuestion
        = decide (lowerOnlyNorm shortAnswerQuestion.correctAnswer
            = lowerOnlyNorm (trailingSpaceAnswers shortAnswerQuestion.id)) :=
  short_answer_c6_amended trailingSpaceAnswers shortAnswerQuestion rfl

/-- C6 (counterexample): the answer `"abc "` is trim-and-case equal to
the key `"abc"` and is accepted by the auto-grader and the quiz
interface, but the courses-view quiz submission handler marks it
incorrect because it does not trim. -/
theorem short_answer_c6_counterexample :
    coursesViewIsCorrect trailingSpaceAnswers shortAnswerQuestion = false
    ∧ interfaceIsCorrect trailingSpaceAnswers shortAnswerQuestion = true
    ∧ (quizResultEntry trailingSpaceAnswers shortAnswerQuestion).isCorrect = true
    ∧ autoGradeEarned trailingSpaceAnswers shortAnswerQuestion
        = shortAnswerQuestion.points := by
  decide

/-- C7 (amended): essay and file-upload questions are left ungraded with
`isCorrect = undefined` and zero earned points in the assignment result
path, while the quiz result service and the quiz interface report
`isCorrect = false` (with zero earned points in the service). -/
theorem manual_grading_c7_amended :
    ∀ (sub : Submission) (a : Assignment) (now : ℤ) (q : Question),
      q.qtype = QuestionType.essay ∨ q.qtype = QuestionType.fileUpload →
      ((assignmentEntry sub a now q).isCorrect = none
        ∧ (assignmentEntry sub a now q).earnedPoints = 0)
      ∧ ((quizResultEntry sub.answers q).isCorrect = false
        ∧ (quizResultEntry sub.answers q).earnedPoints = 0)
      ∧ interfaceIsCorrect sub.answers q = false := by
  intro sub a now q hq
  rcases hq with h | h <;>
    simp [assignmentEntry, quizResultEntry, interfaceIsCorrect, h]

/-- C7 (witness): the manual-grading theorem applied to the essay
question. -/
theorem manual_grading_c7_witness :
    ((assignmentEntry hiddenAnswersSubmission hiddenAnswersAssignment 0 essayQuestion).isCorrect
        = none
      ∧ (assignmentEntry hiddenAnswersSubmission hiddenAnswersAssignment 0
          essayQuestion).earnedPoints = 0)
    ∧ ((quizResultEntry hiddenAnswersSubmission.answers essayQuestion).isCorrect = false
      ∧ (quizResultEntry hiddenAnswersSubmission.answers essayQuestion).earnedPoints = 0)
    ∧ interfaceIsCorrect hiddenAnswersSubmission.answers essayQuestion = false :=
  manual_grading_c7_amended hiddenAnswersSubmission hiddenAnswersAssignment 0 essayQuestion
    (Or.inl rfl)

/-- C7 (counterexample): the quiz result path types per-question
correctness as a plain boolean and reports `false` — not `undefined` —
for an essay question. -/
theorem manual_grading_c7_counterexample :
    (quizResultEntry noAnswers essayQuestion).isCorrect = false
    ∧ interfaceIsCorrect noAnswers essayQuestion = false
    ∧ (quizResultEntry noAnswers fileUploadQuestion).isCorrect = false := by
  decide

/-- C9 (amended): the assignment auto-grader is total — a question whose
answer is missing is simply counted incorrect, and a zero point total
yields score 0 — while the quiz interface and the courses-view handler
produce no numeric score (JS `NaN`) on an empty question set. -/
theorem grading_total_c9_amended :
    (∀ (answers : String → JsVal) (qs : List Question),
      (qs.map Question.points).sum = 0 → autoGradeRawScore answers qs = 0)
    ∧ (∀ (answers : String → JsVal) (q : Question),
      answers q.id = JsVal.undef → q.correctAnswer ≠ JsVal.undef →
      autoGradeEarned answers q = 0)
    ∧ (∀ answers : String → JsVal,
      interfaceScore answers emptyQuiz = none
      ∧ coursesViewQuizScore answers emptyQuiz = none) := by
  refine ⟨?_, ?_, ?_⟩
  · intro answers qs h
    rw [autoGradeRawScore, autoGradeLoop_eq]
    simp [h]
  · intro answers q hu hc
    obtain ⟨id, qt, ca, pts, ex⟩ := q
    simp only at hu hc
    cases qt
    case multipleChoice =>
      show (if answers id = ca then pts else 0) = 0
      rw [hu, if_neg]
      exact fun he => hc he.symm
    case shortAnswer =>
      show (if (jsToChars ca).map (fun s => jsTrim (jsToLower s))
          = (jsToChars (answers id)).map (fun s => jsTrim (jsToLower s))
          then pts else 0) = 0
      rw [hu, if_neg]
      intro he
      rcases ca with _ | n | s
      · exact hc rfl
      · simp [jsToChars] at he
      · simp [jsToChars] at he
    case essay => rfl
    case fileUpload => rfl
  · intro answers
    exact ⟨rfl, rfl⟩

/-- C9 (witness): the totality theorem applied to an empty question
list and to a short-answer question with a missing answer. -/
theorem grading_total_c9_witness :
    autoGradeRawScore noAnswers [] = 0
    ∧ autoGradeEarned noAnswers shortAnswerQuestion = 0 :=
  ⟨grading_total_c9_amended.1 noAnswers [] (by decide),
    grading_total_c9_amended.2.1 noAnswers shortAnswerQuestion (by decide) (by decide)⟩

/-- C9 (counterexample): on an empty question set the quiz interface's
score is the JS `NaN` (no numeric value), not the claimed 0. -/
theorem grading_total_c9_counterexample :
    interfaceScore noAnswers emptyQuiz = none
    ∧ interfaceScore noAnswers emptyQuiz ≠ some 0
    ∧ coursesViewQuizScore noAnswers emptyQuiz ≠ some 0 := by
  decide

/-- C8: submission takes effect at most once per attempt — with the
current attempt cleared on completion a second `handleQuizSubmit` call
is a no-op, so two submits leave the same stored state as one; and with
a time limit configured the countdown reaching zero flips the state to
completed and triggers submission exactly once, every later pass being
a no-op. -/
theorem submit_once_c8 :
    (∀ (completed : StoredAttempt) (s : QuizSession),
        submitQuiz completed (submitQuiz completed s) = submitQuiz completed s)
    ∧ ∀ (quiz : Quiz) (k : ℕ),
        timerStep^[k] (initTimer quiz)
          = if k ≤ quiz.timeLimit * 60 then
              { timeRemaining := some (quiz.timeLimit * 60 - k)
                quizCompleted := false
                submitCount := 0 }
            else
              { timeRemaining := some 0, quizCompleted := true, submitCount := 1 } := by
  constructor
  · intro c s
    rcases hc : s.currentAttempt with _ | a
    · have h1 : submitQuiz c s = s := by
        unfold submitQuiz
        rw [hc]
      rw [h1, h1]
    · have h1 : submitQuiz c s
          = { currentAttempt := none, savedAttempts := s.savedAttempts ++ [c] } := by
        unfold submitQuiz
        rw [hc]
      rw [h1]
      rfl
  · intro quiz k
    induction k with
    | zero => simp [initTimer]
    | succ k ih =>
        rw [Function.iterate_succ_apply', ih]
        rcases lt_trichotomy k (quiz.timeLimit * 60) with hlt | heq | hgt
        · rw [if_pos (le_of_lt hlt),
            if_pos (show k + 1 ≤ quiz.timeLimit * 60 by omega)]
          have hsub : quiz.timeLimit * 60 - k = (quiz.timeLimit * 60 - (k + 1)) + 1 := by
            omega
          rw [hsub]
          rfl
        · rw [if_pos (le_of_eq heq)]
          have hsub : quiz.timeLimit * 60 - k = 0 := by omega
          rw [hsub, if_neg (by omega)]
          rfl
        · rw [if_neg (by omega), if_neg (by omega)]
          rfl

/-- C10: `getBestQuizAttempt` returns `null` exactly when there are no
attempts; otherwise it returns an attempt from the list whose score no
other attempt exceeds, and whenever another attempt ties that score the
returned attempt was started no earlier (the list is sorted most recent
first and the reducer replaces only on strictly greater score). -/
theorem best_attempt_c10 :
    ∀ (l : List StoredAttempt),
      (getBestQuizAttempt l = none ↔ l = [])
      ∧ ∀ b, getBestQuizAttempt l = some b →
          b ∈ l
          ∧ l.all (fun x => decide (x.score ≤ b.score)) = true
          ∧ l.all (fun x => decide (x.score = b.score → x.startedAt ≤ b.startedAt))
              = true := by
  intro l
  have hperm : List.Perm (getQuizAttempts l) l := List.perm_insertionSort recentFirst l
  have hsorted : List.Sorted recentFirst (getQuizAttempts l) :=
    List.sorted_insertionSort recentFirst l
  constructor
  · constructor
    · intro h
      rcases hq : getQuizAttempts l with _ | ⟨hd, tl⟩
      · rw [hq] at hperm
        exact hperm.symm.eq_nil
      · unfold getBestQuizAttempt at h
        rw [hq] at h
        simp at h
    · intro h
      subst h
      rfl
  · intro b hb
    rcases hq : getQuizAttempts l with _ | ⟨hd, tl⟩
    · unfold getBestQuizAttempt at hb
      rw [hq] at hb
      simp at hb
    · unfold getBestQuizAttempt at hb
      rw [hq] at hb
      replace hb : tl.foldl pickBest hd = b := Option.some.inj hb
      subst hb
      rw [hq] at hperm hsorted
      refine ⟨?_, ?_, ?_⟩
      · exact hperm.subset (foldl_pickBest_mem tl hd)
      · rw [List.all_eq_true]
        intro x hx
        have hx' : x ∈ hd :: tl := hperm.mem_iff.2 hx
        exact decide_eq_true (foldl_pickBest_le tl hd x hx')
      · rw [List.all_eq_true]
        intro x hx
        have hx' : x ∈ hd :: tl := hperm.mem_iff.2 hx
        exact decide_eq_true (fun heq => foldl_pickBest_tie tl hd hsorted x hx' heq)

/-- C10 (witness): on two attempts tied at score 80 the most recently
started one is returned. -/
theorem best_attempt_c10_witness :
    attemptB ∈ [attemptA, attemptB]
    ∧ [attemptA, attemptB].all (fun x => decide (x.score ≤ attemptB.score)) = true
    ∧ [attemptA, attemptB].all
        (fun x => decide (x.score = attemptB.score → x.startedAt ≤ attemptB.startedAt))
        = true :=
  (best_attempt_c10 [attemptA, attemptB]).2 attemptB rfl
